import Mathlib

/-!
# Verification of the Pune School Dashboard normalization-and-rollup engine

Shallow embedding of the core data-processing functions of the repository:

* the type-coercion layer (`safe_int` / `safe_float` / `safe_str`, present in
  two variants: `backend/etl/etl_pipeline.py` and
  `backend/data_import/parser.py`),
* the placeholder/junk row filter (`is_placeholder_row`),
* the record normalizers' derived-rate computations,
* the hierarchical aggregator (`DatasetParser.get_aggregated_data`),
* the composite index calculators and RAG classifiers
  (`routers/executive.py` and `etl_pipeline.py`).

Python floats are modelled as rationals (`ℚ`): every numeric computation the
claims exercise is exact at this scale, and `round(x, d)` is modelled as
round-half-to-even on rationals (Python's rounding mode).  Raw spreadsheet
cells are modelled by the inductive type `Val` (`None`, `str`, `int`,
`float`); `NaN`/`inf` float payloads are outside the rational model and are
not needed by any claim.
-/

/-- Floor of a rational, written with the executable integer division used by
`Rat.floor` so that `decide`/`rfl` can evaluate it. -/
def ratFloor (q : ℚ) : ℤ := q.num / q.den

theorem ratFloor_eq (q : ℚ) : ratFloor q = ⌊q⌋ := Rat.floor_def.symm

/-- Round-half-to-even on rationals: the semantics of Python's builtin
`round` (to the nearest integer). -/
def roundHalfEven (q : ℚ) : ℤ :=
  let f := ratFloor q
  let r := q - f
  if r < 1/2 then f
  else if 1/2 < r then f + 1
  else if f % 2 = 0 then f else f + 1

/-- Python's `round(x, d)`: round `x * 10^d` half-to-even, then scale back. -/
def pyRound (q : ℚ) (d : ℕ) : ℚ := (roundHalfEven (q * 10 ^ d) : ℚ) / 10 ^ d

theorem roundHalfEven_ge_floor (q : ℚ) : ⌊q⌋ ≤ roundHalfEven q := by
  unfold roundHalfEven
  rw [ratFloor_eq]
  dsimp only
  split
  · exact le_refl _
  · split
    · omega
    · split <;> omega

theorem roundHalfEven_le_ceil (q : ℚ) : roundHalfEven q ≤ ⌈q⌉ := by
  unfold roundHalfEven
  rw [ratFloor_eq]
  dsimp only
  have hfc : ⌊q⌋ ≤ ⌈q⌉ := Int.floor_le_ceil q
  split
  · exact hfc
  · rename_i h1
    push_neg at h1
    have hlt : (⌊q⌋ : ℚ) < q := by
      by_contra hc
      push_neg at hc
      have := Int.floor_le q
      have : q = (⌊q⌋ : ℚ) := le_antisymm hc (Int.floor_le q)
      rw [← this] at h1
      simp at h1
      norm_num at h1
    have : ⌊q⌋ + 1 ≤ ⌈q⌉ := by
      have := Int.lt_ceil.mpr hlt
      omega
    split
    · exact this
    · split <;> omega

theorem roundHalfEven_nonneg {q : ℚ} (h : 0 ≤ q) : 0 ≤ roundHalfEven q := by
  have h0 : (0 : ℤ) ≤ ⌊q⌋ := Int.le_floor.mpr (by exact_mod_cast h)
  have := roundHalfEven_ge_floor q
  omega

theorem roundHalfEven_le {q : ℚ} {n : ℤ} (h : q ≤ (n : ℚ)) : roundHalfEven q ≤ n := by
  have h1 : ⌈q⌉ ≤ n := Int.ceil_le.mpr h
  have := roundHalfEven_le_ceil q
  omega

theorem pyRound_nonneg {q : ℚ} (d : ℕ) (h : 0 ≤ q) : 0 ≤ pyRound q d := by
  unfold pyRound
  apply div_nonneg
  · exact_mod_cast roundHalfEven_nonneg (by positivity)
  · positivity

theorem pyRound_le {q : ℚ} {n : ℤ} (d : ℕ) (h : q ≤ (n : ℚ)) : pyRound q d ≤ (n : ℚ) := by
  unfold pyRound
  rw [div_le_iff₀ (by positivity)]
  have hq : q * 10 ^ d ≤ ((n * 10 ^ d : ℤ) : ℚ) := by
    push_cast
    have hpow : (0 : ℚ) ≤ 10 ^ d := by positivity
    exact mul_le_mul_of_nonneg_right h hpow
  have := roundHalfEven_le hq
  calc ((roundHalfEven (q * 10 ^ d) : ℚ)) ≤ ((n * 10 ^ d : ℤ) : ℚ) := by exact_mod_cast this
    _ = (n : ℚ) * 10 ^ d := by push_cast; ring

/-- A raw spreadsheet cell value as seen by the Python code: missing
(`None`/`NaN`), a string, an int, or a float (modelled as `ℚ`). -/
inductive Val where
  | vNone : Val
  | vStr : String → Val
  | vInt : ℤ → Val
  | vFloat : ℚ → Val
deriving DecidableEq

/-- Python's `str.strip()`: drop leading and trailing whitespace. -/
def pyStrip (s : String) : String :=
  (((s.data.dropWhile Char.isWhitespace).reverse.dropWhile Char.isWhitespace).reverse).asString

/-- Python's `str.startswith(pat)`. -/
def pyStartsWith (s pat : String) : Bool := pat.data.isPrefixOf s.data

/-- Python's `str.endswith(pat)`. -/
def pyEndsWith (s pat : String) : Bool := pat.data.isSuffixOf s.data

/-- Python's `str.lower()`. -/
def pyLower (s : String) : String := (s.data.map Char.toLower).asString

/-- Numeric value of a digit run, most significant first. -/
def digitsVal (l : List Char) : ℕ := l.foldl (fun a c => a * 10 + (c.toNat - 48)) 0

/-- Exponent part of a float literal (after the `e`/`E`): optional sign then
one or more digits. -/
def parseExp? (l : List Char) : Option ℤ :=
  match l with
  | '+' :: rest =>
      if !rest.isEmpty && rest.all Char.isDigit then some (digitsVal rest) else none
  | '-' :: rest =>
      if !rest.isEmpty && rest.all Char.isDigit then some (-(digitsVal rest : ℤ)) else none
  | _ => if !l.isEmpty && l.all Char.isDigit then some (digitsVal l) else none

/-- Mantissa of a float literal: `digits`, `digits.digits`, `.digits` or
`digits.` (at least one digit overall). -/
def parseMantissa? (l : List Char) : Option ℚ :=
  let ip := l.takeWhile Char.isDigit
  let rest := l.drop ip.length
  match rest with
  | [] => if ip.isEmpty then none else some (digitsVal ip : ℚ)
  | '.' :: fr =>
      let fp := fr.takeWhile Char.isDigit
      let rest2 := fr.drop fp.length
      if !rest2.isEmpty then none
      else if ip.isEmpty && fp.isEmpty then none
      else some ((digitsVal ip : ℚ) + (digitsVal fp : ℚ) / (10 ^ fp.length))
  | _ => none

/-- Unsigned float literal: mantissa with optional `e`/`E` exponent. -/
def parseFloatCore? (l : List Char) : Option ℚ :=
  let mant := l.takeWhile (fun c => c != 'e' && c != 'E')
  let rest := l.drop mant.length
  match rest with
  | [] => parseMantissa? mant
  | _ :: ex =>
      match parseMantissa? mant, parseExp? ex with
      | some m, some e => some (m * (10 : ℚ) ^ e)
      | _, _ => none

/-- Model of Python's builtin `float(s)` on strings: strip whitespace,
optional sign, decimal literal with optional fraction and exponent; `none`
models the `ValueError` raised on unparseable text.  (The special payloads
`inf`/`nan` are outside the rational model.) -/
def pyStrToFloat? (s : String) : Option ℚ :=
  let t := (pyStrip s).data
  match t with
  | '+' :: rest => parseFloatCore? rest
  | '-' :: rest => (parseFloatCore? rest).map Neg.neg
  | _ => parseFloatCore? t

/-- Model of Python's `float(v)` on a raw cell value; `none` models an
exception (`TypeError` on `None`, `ValueError` on bad strings). -/
def pyFloat? (v : Val) : Option ℚ :=
  match v with
  | .vNone => none
  | .vStr s => pyStrToFloat? s
  | .vInt n => some (n : ℚ)
  | .vFloat q => some q

/-- Model of Python's `int(f)` on a float: truncation toward zero. -/
def pyIntOfFloat (q : ℚ) : ℤ := if 0 ≤ q then ratFloor q else -(ratFloor (-q))

/-- Model of `pd.isna(v)`: true exactly on the missing value. -/
def pdIsna (v : Val) : Bool :=
  match v with
  | .vNone => true
  | _ => false

namespace DataImport

/-- `safe_int` from `backend/data_import/parser.py`: `0` on missing values,
otherwise `int(float(val))`, with `0` on any conversion error. -/
def safe_int (v : Val) : ℤ :=
  if pdIsna v then 0
  else
    match pyFloat? v with
    | some q => pyIntOfFloat q
    | none => 0

/-- `safe_float` from `backend/data_import/parser.py`. -/
def safe_float (v : Val) : ℚ :=
  if pdIsna v then 0
  else
    match pyFloat? v with
    | some q => q
    | none => 0

/-- Rendering of a non-missing cell as a string (`str(val)` in Python).
The decimal rendering of floats is abstracted by the canonical rational
representation; no claim depends on it. -/
def pyStr (v : Val) : String :=
  match v with
  | .vNone => "None"
  | .vStr s => s
  | .vInt n => toString n
  | .vFloat q => toString q

/-- `safe_str` from `backend/data_import/parser.py`: empty string on missing
values, else `str(val).strip()`. -/
def safe_str (v : Val) : String :=
  if pdIsna v then "" else pyStrip (pyStr v)

end DataImport

/-- The leading-digit run matched by the regex `^(\d+)` in the ETL
`safe_int`, if any. -/
def leadingDigitsVal? (s : String) : Option ℕ :=
  let ds := s.data.takeWhile Char.isDigit
  if ds.isEmpty then none else some (digitsVal ds)

namespace ETL

/-- `safe_int` from `backend/etl/etl_pipeline.py`: handles the `"1-Yes"`/
`"2-No"` convention, literal `yes`/`no`, parenthesized placeholders, a
leading-digit run, then `int(float(val))`, and returns `0` on any error. -/
def safe_int (v : Val) : ℤ :=
  if pdIsna v then 0
  else
    match v with
    | .vStr s =>
        if pyStartsWith s "1-" || pyLower s == "yes" then 1
        else if pyStartsWith s "2-" || pyLower s == "no" then 0
        else if pyStartsWith s "(" && pyEndsWith s ")" then 0
        else
          match leadingDigitsVal? s with
          | some n => (n : ℤ)
          | none =>
              match pyStrToFloat? s with
              | some q => pyIntOfFloat q
              | none => 0
    | _ =>
        match pyFloat? v with
        | some q => pyIntOfFloat q
        | none => 0

/-- `safe_float` from `backend/etl/etl_pipeline.py`. -/
def safe_float (v : Val) : ℚ :=
  if pdIsna v then 0
  else
    match pyFloat? v with
    | some q => q
    | none => 0

/-- `safe_str` from `backend/etl/etl_pipeline.py`. -/
def safe_str (v : Val) : String :=
  if pdIsna v then "" else pyStrip (DataImport.pyStr v)

/-- `is_placeholder_row` from `backend/etl/etl_pipeline.py`: a row is a
placeholder if any of its first 5 cells is a string that starts with `(`
and ends with `)`. -/
def is_placeholder_row (row : List Val) : Bool :=
  (row.take 5).any fun v =>
    match v with
    | .vStr s => pyStartsWith s "(" && pyEndsWith s ")"
    | _ => false

end ETL

/-- Modelled from the spec: a cell matching the pattern `"(<digits>)"`
exactly (an opening parenthesis, one or more digits, a closing parenthesis),
as §4.3 of the spec describes the placeholder heuristic. -/
def specPlaceholderCell (s : String) : Bool :=
  let cs := s.data
  decide (cs.length ≥ 3) && cs.head? == some '(' && cs.getLast? == some ')' &&
    ((cs.drop 1).dropLast.all Char.isDigit)

/-- Modelled from the spec: the row filter of §4.3, requiring the exact
`"(<digits>)"` pattern in one of the first 5 cells. -/
def spec_is_placeholder_row (row : List Val) : Bool :=
  (row.take 5).any fun v =>
    match v with
    | .vStr s => specPlaceholderCell s
    | _ => false

namespace DataImport

/-- The `aadhaar_percentage` computation of `DatasetParser.parse_aadhaar`
(`backend/data_import/parser.py`): `round(auth / total * 100, 1)` when
`total_students > 0`, else `0.0`. -/
def aadhaar_percentage (aadhaar_authenticated total_students : ℤ) : ℚ :=
  if total_students > 0 then
    pyRound ((aadhaar_authenticated : ℚ) / (total_students : ℚ) * 100) 1
  else 0

/-- The `apaar_pct` computation of `DatasetParser.parse_apaar`. -/
def apaar_percentage (apaar_done total_students : ℤ) : ℚ :=
  if total_students > 0 then
    pyRound ((apaar_done : ℚ) / (total_students : ℚ) * 100) 1
  else 0

end DataImport

namespace ETL

/-- The `exception_rate` field of `ETLPipeline.etl_aadhaar`:
`round((aadhaar_not_provided / total_enrolment * 100) if total_enrolment > 0 else 0, 2)`. -/
def exception_rate (aadhaar_not_provided total_enrolment : ℤ) : ℚ :=
  pyRound
    (if total_enrolment > 0 then
      (aadhaar_not_provided : ℚ) / (total_enrolment : ℚ) * 100
    else 0) 2

/-- The `completion_rate` field of `ETLPipeline.etl_data_entry`. -/
def completion_rate (completed total : ℤ) : ℚ :=
  pyRound
    (if total > 0 then (completed : ℚ) / (total : ℚ) * 100 else 0) 2

/-- The `generation_rate` field of `ETLPipeline.etl_apaar`: computed
unrounded with a zero-denominator branch, then stored as `round(rate, 2)`. -/
def generation_rate (total_generated total_students : ℤ) : ℚ :=
  pyRound
    (if total_students > 0 then
      (total_generated : ℚ) / (total_students : ℚ) * 100
    else 0) 2

/-- The `shi_score` of `ETLPipeline.create_districts_summary` (and
`create_blocks_summary`): `round(aadhaar_pct*0.3 + apaar_pct*0.3 +
teacher_quality*0.4, 1)`. -/
def shi_score (aadhaar_pct apaar_pct teacher_quality : ℚ) : ℚ :=
  pyRound (aadhaar_pct * (3/10) + apaar_pct * (3/10) + teacher_quality * (4/10)) 1

/-- The `rag_status` of `ETLPipeline.create_districts_summary` and
`create_blocks_summary`: `"green" if shi_score >= 75 else "amber" if
shi_score >= 50 else "red"`. -/
def rag_status (shi_score : ℚ) : String :=
  if shi_score ≥ 75 then "green" else if shi_score ≥ 50 then "amber" else "red"

end ETL

namespace Executive

/-- The School Health Index of `get_school_health_index`
(`backend/routers/executive.py`): `round(identity*0.25 + infra*0.25 +
teacher*0.25 + operational*0.25, 1)` — no clamping is applied. -/
def shi (identity_index infra_index teacher_index operational_index : ℚ) : ℚ :=
  pyRound
    (identity_index * (25/100) + infra_index * (25/100) + teacher_index * (25/100) +
      operational_index * (25/100)) 1

/-- The `get_rag` classifier of `get_school_health_index`
(`backend/routers/executive.py`). -/
def get_rag (value : ℚ) : String :=
  if value ≥ 85 then "Green" else if value ≥ 70 then "Amber" else "Red"

end Executive

/-- Modelled from the spec (§4.6): `score = clamp(sum(weight_i *
subscore_i), 0, 100)`, rounded to one decimal place, for the executive
module's equal 0.25 weights. -/
def specClampedShi (identity_index infra_index teacher_index operational_index : ℚ) : ℚ :=
  pyRound
    (min 100 (max 0
      (identity_index * (25/100) + infra_index * (25/100) + teacher_index * (25/100) +
        operational_index * (25/100)))) 1

/-- Modelled from the spec (§4.4 step 3): derived rate fields as
`round(numerator / max(denominator, 1) * 100, d)` — zero denominators
floored to 1 rather than branched on. -/
def specFlooredRate (numerator denominator : ℤ) (d : ℕ) : ℚ :=
  pyRound ((numerator : ℚ) / ((max denominator 1 : ℤ) : ℚ) * 100) d

/-- The string forms the ETL `safe_int` recognizes before falling back to
`int(float(val))`: the `1-`/`2-` codebook, literal yes/no, parenthesized
placeholders, and a leading digit run. -/
def numericConvention (s : String) : Bool :=
  pyStartsWith s "1-" || pyLower s == "yes" || pyStartsWith s "2-" || pyLower s == "no" ||
    (pyStartsWith s "(" && pyEndsWith s ")") || (leadingDigitsVal? s).isSome

/-- C3 — totality of the type-coercion layer: both the parser's and the ETL's
`safe_int` / `safe_float` / `safe_str` are total functions (they are plain
Lean functions over all of `Val`, modelling that the Python originals catch
every exception), and on missing values, the empty string, and any string
that neither parses as a float nor matches a recognized numeric convention,
they return `0`, `0.0` and `""` respectively. -/
theorem coercion_totality_defaults (s : String)
    (hfloat : pyStrToFloat? s = none) (hconv : numericConvention s = false) :
    DataImport.safe_int (.vStr s) = 0 ∧ DataImport.safe_float (.vStr s) = 0 ∧
    ETL.safe_int (.vStr s) = 0 ∧ ETL.safe_float (.vStr s) = 0 ∧
    DataImport.safe_int .vNone = 0 ∧ DataImport.safe_float .vNone = 0 ∧
    DataImport.safe_str .vNone = "" ∧
    ETL.safe_int .vNone = 0 ∧ ETL.safe_float .vNone = 0 ∧ ETL.safe_str .vNone = "" ∧
    DataImport.safe_int (.vStr "") = 0 ∧ DataImport.safe_float (.vStr "") = 0 ∧
    ETL.safe_int (.vStr "") = 0 ∧ ETL.safe_float (.vStr "") = 0 := by
  simp only [numericConvention, Bool.or_eq_false_iff, Bool.and_eq_false_iff] at hconv
  obtain ⟨⟨⟨⟨⟨h1, h2⟩, h3⟩, h4⟩, h5⟩, h6⟩ := hconv
  refine ⟨?_, ?_, ?_, ?_, ?_, ?_, ?_, ?_, ?_, ?_, ?_, ?_, ?_, ?_⟩
  · simp [DataImport.safe_int, pdIsna, pyFloat?, hfloat]
  · simp [DataImport.safe_float, pdIsna, pyFloat?, hfloat]
  · simp only [ETL.safe_int, pdIsna, Bool.false_eq_true, if_false]
    rw [if_neg, if_neg, if_neg]
    · rw [show leadingDigitsVal? s = none from Option.not_isSome_iff_eq_none.mp (by simp [h6]),
        hfloat]
    · intro hc
      rcases Bool.and_eq_true_iff.mp hc with ⟨ha, hb⟩
      cases h5 <;> simp_all
    · intro hc
      rcases Bool.or_eq_true_iff.mp hc with h | h <;> simp_all
    · intro hc
      rcases Bool.or_eq_true_iff.mp hc with h | h <;> simp_all
  · simp [ETL.safe_float, pdIsna, pyFloat?, hfloat]
  · rfl
  · rfl
  · rfl
  · rfl
  · rfl
  · rfl
  · decide
  · decide
  · decide
  · decide

/-- Witness for `coercion_totality_defaults` at the non-numeric string
`"abc"`. -/
theorem coercion_totality_defaults_witness :
    DataImport.safe_int (.vStr "abc") = 0 ∧ DataImport.safe_float (.vStr "abc") = 0 ∧
    ETL.safe_int (.vStr "abc") = 0 ∧ ETL.safe_float (.vStr "abc") = 0 ∧
    DataImport.safe_int .vNone = 0 ∧ DataImport.safe_float .vNone = 0 ∧
    DataImport.safe_str .vNone = "" ∧
    ETL.safe_int .vNone = 0 ∧ ETL.safe_float .vNone = 0 ∧ ETL.safe_str .vNone = "" ∧
    DataImport.safe_int (.vStr "") = 0 ∧ DataImport.safe_float (.vStr "") = 0 ∧
    ETL.safe_int (.vStr "") = 0 ∧ ETL.safe_float (.vStr "") = 0 :=
  coercion_totality_defaults "abc" (by decide) (by decide)

/-- C4 counterexample: the row whose first cell is the string `"(x)"` is
classified as a placeholder by the code (`is_placeholder_row` only checks
that the cell starts with `(` and ends with `)`), while the spec's pattern
`"(<digits>)"` does not match it. -/
theorem placeholder_digits_counterexample :
    ETL.is_placeholder_row [.vStr "(x)"] = true ∧
    spec_is_placeholder_row [.vStr "(x)"] = false := by
  decide

/-- C4 (amended) — the placeholder filter classifies a row as a placeholder
iff one of its first 5 cells is a string that starts with `(` and ends with
`)` (no digits requirement); the two example rows of the spec behave as
stated. -/
theorem is_placeholder_row_characterization :
    (∀ row : List Val, ETL.is_placeholder_row row = true ↔
      ∃ s : String, Val.vStr s ∈ row.take 5 ∧
        pyStartsWith s "(" = true ∧ pyEndsWith s ")" = true) ∧
    ETL.is_placeholder_row [.vStr "(1)", .vStr "(2)", .vStr "School A"] = true ∧
    ETL.is_placeholder_row [.vStr "UDISE001", .vStr "2701", .vStr "School A"] = false := by
  refine ⟨fun row => ?_, by decide, by decide⟩
  rw [ETL.is_placeholder_row, List.any_eq_true]
  constructor
  · rintro ⟨v, hv, hp⟩
    cases v with
    | vStr s => exact ⟨s, hv, Bool.and_eq_true_iff.mp hp⟩
    | vNone => simp at hp
    | vInt n => simp at hp
    | vFloat q => simp at hp
  · rintro ⟨s, hs, h1, h2⟩
    exact ⟨.vStr s, hs, by simp [h1, h2]⟩

/-- C6 — the two RAG threshold schemes: the executive module bands at
85/70, the ETL aggregate-summary module at 75/50, each characterized
exactly. -/
theorem rag_thresholds (v : ℚ) :
    (Executive.get_rag v = "Green" ↔ 85 ≤ v) ∧
    (Executive.get_rag v = "Amber" ↔ 70 ≤ v ∧ v < 85) ∧
    (Executive.get_rag v = "Red" ↔ v < 70) ∧
    (ETL.rag_status v = "green" ↔ 75 ≤ v) ∧
    (ETL.rag_status v = "amber" ↔ 50 ≤ v ∧ v < 75) ∧
    (ETL.rag_status v = "red" ↔ v < 50) := by
  unfold Executive.get_rag ETL.rag_status
  refine ⟨?_, ?_, ?_, ?_, ?_, ?_⟩ <;>
    · split_ifs with h1 h2 <;> simp_all <;> try linarith


theorem pyRound_zero (d : ℕ) : pyRound 0 d = 0 := by
  have h : roundHalfEven 0 = 0 := by
    unfold roundHalfEven
    rw [ratFloor_eq]
    norm_num
  unfold pyRound
  rw [zero_mul, h]
  norm_num

theorem ratio_nonneg {n d : ℤ} (hn : 0 ≤ n) (hd : 0 < d) :
    0 ≤ (n : ℚ) / (d : ℚ) * 100 := by
  have hdq : (0 : ℚ) < (d : ℚ) := by exact_mod_cast hd
  have hnq : (0 : ℚ) ≤ (n : ℚ) := by exact_mod_cast hn
  positivity

theorem ratio_le_hundred {n d : ℤ} (hnd : n ≤ d) (hd : 0 < d) :
    (n : ℚ) / (d : ℚ) * 100 ≤ 100 := by
  have hdq : (0 : ℚ) < (d : ℚ) := by exact_mod_cast hd
  have h1 : (n : ℚ) / (d : ℚ) ≤ 1 := by
    rw [div_le_one hdq]
    exact_mod_cast hnd
  nlinarith

/-- C7 counterexample: with numerator 2 and denominator 1 (both
non-negative), the parser's derived aadhaar percentage is 200, outside
`[0, 100]` — the code never clamps the ratio. -/
theorem rate_bound_counterexample :
    DataImport.aadhaar_percentage 2 1 = 200 ∧
    ¬ DataImport.aadhaar_percentage 2 1 ≤ 100 := by
  constructor
  · with_unfolding_all decide
  · intro h
    rw [show DataImport.aadhaar_percentage 2 1 = 200 by with_unfolding_all decide] at h
    norm_num at h

/-- C7 (amended) — every derived percentage of the cited record normalizers
lies in `[0, 100]` after rounding for non-negative numerator/denominator
inputs, provided additionally that the numerator does not exceed the
denominator (the code never clamps, so `numerator > denominator` escapes
the bound). -/
theorem rate_bounded (n d : ℤ) (hn : 0 ≤ n) (hnd : n ≤ d) :
    (0 ≤ DataImport.aadhaar_percentage n d ∧ DataImport.aadhaar_percentage n d ≤ 100) ∧
    (0 ≤ ETL.exception_rate n d ∧ ETL.exception_rate n d ≤ 100) ∧
    (0 ≤ ETL.completion_rate n d ∧ ETL.completion_rate n d ≤ 100) := by
  have h100 : ((100 : ℤ) : ℚ) = (100 : ℚ) := by norm_num
  have core : ∀ dec : ℕ,
      0 ≤ pyRound (if d > 0 then (n : ℚ) / (d : ℚ) * 100 else 0) dec ∧
      pyRound (if d > 0 then (n : ℚ) / (d : ℚ) * 100 else 0) dec ≤ 100 := by
    intro dec
    constructor
    · apply pyRound_nonneg
      split
      · exact ratio_nonneg hn (by omega)
      · norm_num
    · rw [← h100]
      apply pyRound_le
      rw [h100]
      split
      · exact ratio_le_hundred hnd (by omega)
      · norm_num
  have branch : ∀ dec : ℕ,
      (if d > 0 then pyRound ((n : ℚ) / (d : ℚ) * 100) dec else 0) =
        pyRound (if d > 0 then (n : ℚ) / (d : ℚ) * 100 else 0) dec := by
    intro dec
    split
    · rfl
    · rw [pyRound_zero]
  refine ⟨?_, ?_, ?_⟩
  · unfold DataImport.aadhaar_percentage
    rw [branch 1]
    exact core 1
  · unfold ETL.exception_rate
    exact core 2
  · unfold ETL.completion_rate
    exact core 2

/-- Witness for `rate_bounded` at numerator 3, denominator 4. -/
theorem rate_bounded_witness :
    (0 ≤ DataImport.aadhaar_percentage 3 4 ∧ DataImport.aadhaar_percentage 3 4 ≤ 100) ∧
    (0 ≤ ETL.exception_rate 3 4 ∧ ETL.exception_rate 3 4 ≤ 100) ∧
    (0 ≤ ETL.completion_rate 3 4 ∧ ETL.completion_rate 3 4 ≤ 100) :=
  rate_bounded 3 4 (by norm_num) (by norm_num)

/-- C8 counterexample: at numerator 1, denominator 0 the parser's aadhaar
percentage is `0.0` (the code branches on `total_students > 0`), while the
spec's formula `round(n / max(d, 1) * 100, 1)` yields `100.0`. -/
theorem rate_flooring_counterexample :
    DataImport.aadhaar_percentage 1 0 = 0 ∧
    specFlooredRate 1 0 1 = 100 ∧
    DataImport.aadhaar_percentage 1 0 ≠ specFlooredRate 1 0 1 := by
  refine ⟨by with_unfolding_all decide, by with_unfolding_all decide, ?_⟩
  intro h
  rw [show DataImport.aadhaar_percentage 1 0 = 0 by with_unfolding_all decide,
    show specFlooredRate 1 0 1 = 100 by with_unfolding_all decide] at h
  norm_num at h

/-- C8 (amended) — the cited record normalizers avoid division by zero by
branching on the denominator, not by flooring it at 1: for a positive
denominator the derived rate agrees with the spec's floored formula, and for
denominator 0 the rate is `0` regardless of the numerator (not
`round(n * 100, d)`). -/
theorem rate_zero_denominator_branching (n d : ℤ) (hd : 0 < d) :
    DataImport.aadhaar_percentage n d = specFlooredRate n d 1 ∧
    DataImport.apaar_percentage n d = specFlooredRate n d 1 ∧
    ETL.generation_rate n d = specFlooredRate n d 2 ∧
    DataImport.aadhaar_percentage n 0 = 0 ∧
    DataImport.apaar_percentage n 0 = 0 ∧
    ETL.generation_rate n 0 = 0 := by
  have hmax : max d 1 = d := by omega
  refine ⟨?_, ?_, ?_, ?_, ?_, ?_⟩
  · unfold DataImport.aadhaar_percentage specFlooredRate
    rw [hmax, if_pos hd]
  · unfold DataImport.apaar_percentage specFlooredRate
    rw [hmax, if_pos hd]
  · unfold ETL.generation_rate specFlooredRate
    rw [hmax, if_pos hd]
  · unfold DataImport.aadhaar_percentage
    norm_num
  · unfold DataImport.apaar_percentage
    norm_num
  · unfold ETL.generation_rate
    rw [if_neg (by norm_num)]
    exact pyRound_zero 2

/-- Witness for `rate_zero_denominator_branching` at numerator 1,
denominator 2. -/
theorem rate_zero_denominator_branching_witness :
    DataImport.aadhaar_percentage 1 2 = specFlooredRate 1 2 1 ∧
    DataImport.apaar_percentage 1 2 = specFlooredRate 1 2 1 ∧
    ETL.generation_rate 1 2 = specFlooredRate 1 2 2 ∧
    DataImport.aadhaar_percentage 1 0 = 0 ∧
    DataImport.apaar_percentage 1 0 = 0 ∧
    ETL.generation_rate 1 0 = 0 :=
  rate_zero_denominator_branching 1 2 (by norm_num)

/-- C5 counterexample: with all four sub-scores equal to 200 (noisy inputs
outside `[0, 100]`), the executive School Health Index is 200 — the code
applies no clamp — while the spec's clamped formula yields 100. -/
theorem shi_clamp_counterexample :
    Executive.shi 200 200 200 200 = 200 ∧
    specClampedShi 200 200 200 200 = 100 ∧
    ¬ Executive.shi 200 200 200 200 ≤ 100 := by
  refine ⟨by with_unfolding_all decide, by with_unfolding_all decide, ?_⟩
  intro h
  rw [show Executive.shi 200 200 200 200 = 200 by with_unfolding_all decide] at h
  norm_num at h

/-- C5 (amended) — the composite index calculators compute
`round(sum(weight_i * subscore_i), 1)` with no clamping; the score lies in
`[0, 100]` provided every sub-score does (the weights are non-negative and
sum to 1). -/
theorem shi_bounded (a b c d x y z : ℚ)
    (ha : 0 ≤ a ∧ a ≤ 100) (hb : 0 ≤ b ∧ b ≤ 100)
    (hc : 0 ≤ c ∧ c ≤ 100) (hd : 0 ≤ d ∧ d ≤ 100)
    (hx : 0 ≤ x ∧ x ≤ 100) (hy : 0 ≤ y ∧ y ≤ 100) (hz : 0 ≤ z ∧ z ≤ 100) :
    (0 ≤ Executive.shi a b c d ∧ Executive.shi a b c d ≤ 100) ∧
    (0 ≤ ETL.shi_score x y z ∧ ETL.shi_score x y z ≤ 100) := by
  have h100 : ((100 : ℤ) : ℚ) = (100 : ℚ) := by norm_num
  refine ⟨⟨?_, ?_⟩, ⟨?_, ?_⟩⟩
  · apply pyRound_nonneg
    nlinarith [ha.1, hb.1, hc.1, hd.1]
  · rw [← h100]
    apply pyRound_le
    rw [h100]
    nlinarith [ha.2, hb.2, hc.2, hd.2]
  · apply pyRound_nonneg
    nlinarith [hx.1, hy.1, hz.1]
  · rw [← h100]
    apply pyRound_le
    rw [h100]
    nlinarith [hx.2, hy.2, hz.2]

/-- Witness for `shi_bounded` with all sub-scores equal to 50. -/
theorem shi_bounded_witness :
    (0 ≤ Executive.shi 50 50 50 50 ∧ Executive.shi 50 50 50 50 ≤ 100) ∧
    (0 ≤ ETL.shi_score 50 50 50 ∧ ETL.shi_score 50 50 50 ≤ 100) :=
  shi_bounded 50 50 50 50 50 50 50 (by norm_num) (by norm_num) (by norm_num)
    (by norm_num) (by norm_num) (by norm_num) (by norm_num)

namespace DataImport

/-- One entry of `DatasetParser.schools_data`: the merged-by-UDISE map of
partial school views.  Each field is `Option`al, mirroring a Python dict in
which a key may be absent; only the keys the aadhaar/comparison/water/
enrolment/remarks/data-entry/teacher/classroom parsers write and the keys
`get_aggregated_data` reads are modelled. -/
structure SchoolData where
  udise_code : Option String := none
  school_name : Option String := none
  district_name : Option String := none
  block_name : Option String := none
  aadhaar_percentage : Option ℚ := none
  total_students_aadhaar : Option ℤ := none
  apaar_percentage : Option ℚ := none
  total_students_apaar : Option ℤ := none
  total_students : Option ℤ := none
  boys : Option ℤ := none
  girls : Option ℤ := none
  total_teachers : Option ℤ := none
  water_available : Option Bool := none
  toilets_available : Option Bool := none
  certified : Option Bool := none
  has_remarks : Option Bool := none
deriving DecidableEq

/-- Python truthiness of `dict.get(key)` on an optional float field:
the key must be present and the value nonzero. -/
def truthyQ (o : Option ℚ) : Bool :=
  match o with
  | none => false
  | some q => q != 0

/-- Python truthiness of `dict.get(key)` on an optional bool field. -/
def truthyB (o : Option Bool) : Bool :=
  match o with
  | none => false
  | some b => b

/-- `school.get(key, 0)` on an optional count field. -/
def getZ (o : Option ℤ) : ℤ := o.getD 0

/-- `school.get("district_name", "Unknown")` in `get_aggregated_data`. -/
def districtOf (s : SchoolData) : String := s.district_name.getD "Unknown"

/-- `school.get("block_name", "Unknown")` in `get_aggregated_data`. -/
def blockOf (s : SchoolData) : String := s.block_name.getD "Unknown"

/-- The skip condition of `get_aggregated_data`: a school contributes
unless its district name is empty or the `"Unknown"` sentinel. -/
def contributes (s : SchoolData) : Bool :=
  !(districtOf s == "" || districtOf s == "Unknown")

/-- The composite block key `f"{district_name}|{block_name}"`. -/
def blockKeyOf (s : SchoolData) : String := districtOf s ++ "|" ++ blockOf s

/-- A district accumulator of `get_aggregated_data`, as initialized for a
fresh district name. -/
structure DistAcc where
  district_name : String
  total_schools : ℤ := 0
  total_students : ℤ := 0
  total_teachers : ℤ := 0
  aadhaar_sum : ℚ := 0
  apaar_sum : ℚ := 0
  water_count : ℤ := 0
  toilet_count : ℤ := 0
  certified_count : ℤ := 0
  schools_with_data : ℤ := 0
deriving DecidableEq

/-- A block accumulator of `get_aggregated_data`. -/
structure BlockAcc where
  district_name : String
  block_name : String
  total_schools : ℤ := 0
  total_students : ℤ := 0
  aadhaar_sum : ℚ := 0
  apaar_sum : ℚ := 0
  schools_with_data : ℤ := 0
deriving DecidableEq

/-- The per-school mutation of a district accumulator in
`get_aggregated_data`'s main loop. -/
def distStep (s : SchoolData) (a : DistAcc) : DistAcc :=
  { a with
    total_schools := a.total_schools + 1
    total_students := a.total_students + getZ s.total_students
    total_teachers := a.total_teachers + getZ s.total_teachers
    aadhaar_sum :=
      if truthyQ s.aadhaar_percentage then a.aadhaar_sum + s.aadhaar_percentage.getD 0
      else a.aadhaar_sum
    schools_with_data :=
      if truthyQ s.aadhaar_percentage then a.schools_with_data + 1 else a.schools_with_data
    apaar_sum :=
      if truthyQ s.apaar_percentage then a.apaar_sum + s.apaar_percentage.getD 0
      else a.apaar_sum
    water_count := if truthyB s.water_available then a.water_count + 1 else a.water_count
    toilet_count := if truthyB s.toilets_available then a.toilet_count + 1 else a.toilet_count
    certified_count := if truthyB s.certified then a.certified_count + 1 else a.certified_count }

/-- The per-school mutation of a block accumulator in
`get_aggregated_data`'s main loop. -/
def blockStep (s : SchoolData) (b : BlockAcc) : BlockAcc :=
  { b with
    total_schools := b.total_schools + 1
    total_students := b.total_students + getZ s.total_students
    aadhaar_sum :=
      if truthyQ s.aadhaar_percentage then b.aadhaar_sum + s.aadhaar_percentage.getD 0
      else b.aadhaar_sum
    schools_with_data :=
      if truthyQ s.aadhaar_percentage then b.schools_with_data + 1 else b.schools_with_data
    apaar_sum :=
      if truthyQ s.apaar_percentage then b.apaar_sum + s.apaar_percentage.getD 0
      else b.apaar_sum }

end DataImport

/-- Insertion-order-preserving upsert on an association list, mirroring a
Python dict: `if k not in m: m[k] = init` followed by an in-place mutation
`f` of `m[k]`. -/
def upsert {α : Type} (k : String) (init : α) (f : α → α) :
    List (String × α) → List (String × α)
  | [] => [(k, f init)]
  | (k1, v) :: t => if k1 = k then (k1, f v) :: t else (k1, v) :: upsert k init f t

/-- First-occurrence lookup in an association list (`m[k]` on a Python
dict, given the keys are unique). -/
def alookup {α : Type} (k : String) : List (String × α) → Option α
  | [] => none
  | (k1, v) :: t => if k1 = k then some v else alookup k t

namespace DataImport

/-- One iteration of the main loop of `DatasetParser.get_aggregated_data`:
skip schools without usable district attribution, otherwise update both the
district and the block accumulator maps. -/
def aggStep (acc : List (String × DistAcc) × List (String × BlockAcc)) (s : SchoolData) :
    List (String × DistAcc) × List (String × BlockAcc) :=
  if contributes s then
    (upsert (districtOf s) { district_name := districtOf s } (distStep s) acc.1,
     upsert (blockKeyOf s)
       { district_name := districtOf s, block_name := blockOf s } (blockStep s) acc.2)
  else acc

/-- The accumulation phase of `DatasetParser.get_aggregated_data` over the
values of `schools_data` in insertion order. -/
def get_aggregated_data (schools : List SchoolData) :
    List (String × DistAcc) × List (String × BlockAcc) :=
  schools.foldl aggStep ([], [])

/-- A finalized block aggregate: the fields added to each block dict by the
averaging phase of `get_aggregated_data`. -/
structure BlockOut where
  district_name : String
  block_name : String
  total_schools : ℤ
  total_students : ℤ
  schools_with_data : ℤ
  aadhaar_percentage : ℚ
  apaar_percentage : ℚ
deriving DecidableEq

/-- The averaging phase of `get_aggregated_data` for one block: mean of the
already-computed per-school percentages over `schools_with_data`. -/
def finalizeBlock (b : BlockAcc) : BlockOut :=
  { district_name := b.district_name
    block_name := b.block_name
    total_schools := b.total_schools
    total_students := b.total_students
    schools_with_data := b.schools_with_data
    aadhaar_percentage :=
      if b.schools_with_data > 0 then pyRound (b.aadhaar_sum / (b.schools_with_data : ℚ)) 1
      else 0
    apaar_percentage :=
      if b.schools_with_data > 0 then pyRound (b.apaar_sum / (b.schools_with_data : ℚ)) 1
      else 0 }

/-- The `"blocks"` output of `get_aggregated_data`:
`list(blocks.values())` after the averaging phase. -/
def blocksOut (schools : List SchoolData) : List BlockOut :=
  (get_aggregated_data schools).2.map (fun kb => finalizeBlock kb.2)

/-- A source row of the Aadhaar Status dataset, after column resolution and
`safe_str`/`safe_int` coercion (the fields `DatasetParser.parse_aadhaar`
extracts from the spreadsheet row). -/
structure AadhaarRow where
  udise_code : String
  district_code : String
  district_name : String
  block_name : String
  school_name : String
  total_students : ℤ
  aadhaar_authenticated : ℤ
  aadhaar_pending : ℤ
deriving DecidableEq

/-- The record `DatasetParser.parse_aadhaar` builds for one row, including
the derived `aadhaar_percentage`. -/
structure AadhaarRecord where
  udise_code : String
  district_code : String
  district_name : String
  block_name : String
  school_name : String
  total_students : ℤ
  aadhaar_authenticated : ℤ
  aadhaar_pending : ℤ
  aadhaar_percentage : ℚ
deriving DecidableEq

/-- One row of `DatasetParser.parse_aadhaar`: the record with its derived
percentage (`round(auth/total*100, 1)` when `total_students > 0`, else
`0.0`). -/
def mkAadhaarRecord (r : AadhaarRow) : AadhaarRecord :=
  { udise_code := r.udise_code
    district_code := r.district_code
    district_name := r.district_name
    block_name := r.block_name
    school_name := r.school_name
    total_students := r.total_students
    aadhaar_authenticated := r.aadhaar_authenticated
    aadhaar_pending := r.aadhaar_pending
    aadhaar_percentage := aadhaar_percentage r.aadhaar_authenticated r.total_students }

/-- The `schools_data` update of `parse_aadhaar`: note the student count is
stored under the key `total_students_aadhaar`, not `total_students`. -/
def aadhaarSchoolUpdate (rec : AadhaarRecord) (s : SchoolData) : SchoolData :=
  { s with
    udise_code := some rec.udise_code
    school_name := some rec.school_name
    district_name := some rec.district_name
    block_name := some rec.block_name
    aadhaar_percentage := some rec.aadhaar_percentage
    total_students_aadhaar := some rec.total_students }

/-- `DatasetParser.parse_aadhaar` over a list of coerced rows: returns the
emitted records and the resulting `schools_data` map.  Rows whose UDISE
coerces to the empty string are skipped. -/
def parse_aadhaar (rows : List AadhaarRow) :
    List AadhaarRecord × List (String × SchoolData) :=
  rows.foldl
    (fun acc r =>
      if r.udise_code = "" then acc
      else
        let rec1 := mkAadhaarRecord r
        (acc.1 ++ [rec1], upsert r.udise_code {} (aadhaarSchoolUpdate rec1) acc.2))
    ([], [])

end DataImport

namespace DataImport

/-- The three-school Aadhaar dataset of the spec's example scenario:
`total_students = [100, 50, 0]`, authenticated counts `[90, 50, 0]`, all in
the same district and block. -/
def exampleRows : List AadhaarRow :=
  [⟨"U1", "", "PUNE", "HAVELI", "S1", 100, 90, 0⟩,
   ⟨"U2", "", "PUNE", "HAVELI", "S2", 50, 50, 0⟩,
   ⟨"U3", "", "PUNE", "HAVELI", "S3", 0, 0, 0⟩]

/-- The `schools_data` values produced by parsing the example dataset. -/
def exampleSchools : List SchoolData := (parse_aadhaar exampleRows).2.map Prod.snd

end DataImport

/-- C1 counterexample: on the spec's three-school scenario the hierarchical
aggregation yields block `total_schools = 3` but `total_students = 0` (the
aadhaar parser stores the student count under `total_students_aadhaar`,
which the aggregator never reads) and `aadhaar_percentage = 95.0` (the
truthiness guard `if school.get("aadhaar_percentage"):` excludes the
zero-percentage school from the mean), not the claimed 150 and 63.3. -/
theorem aggregation_example_counterexample :
    ((DataImport.blocksOut DataImport.exampleSchools).map
      (fun b => (b.total_schools, b.total_students, b.aadhaar_percentage)) =
      [(3, 0, 95)]) ∧
    ¬ ((DataImport.blocksOut DataImport.exampleSchools).map
      (fun b => (b.total_schools, b.total_students, b.aadhaar_percentage)) =
      [(3, 150, 633/10)]) := by
  constructor
  · with_unfolding_all decide
  · intro h
    rw [show (DataImport.blocksOut DataImport.exampleSchools).map
        (fun b => (b.total_schools, b.total_students, b.aadhaar_percentage)) =
        [(3, 0, 95)] by with_unfolding_all decide] at h
    have h2 := List.head_eq_of_cons_eq h
    have h3 : ((0 : ℤ) = 150) := congrArg Prod.fst (congrArg Prod.snd h2)
    norm_num at h3

/-- C1 (amended) — on the three-school scenario the per-school aadhaar
percentage list is `[90.0, 100.0, 0.0]` exactly as the claim states, and
the single block aggregate has `total_schools = 3`, `total_students = 0`,
`schools_with_data = 2`, and `aadhaar_percentage = 95.0`: the mean of the
per-school percentages over the schools with a truthy (nonzero) percentage
only. -/
theorem aggregation_example_amended :
    ((DataImport.parse_aadhaar DataImport.exampleRows).1.map
      (fun r => r.aadhaar_percentage) = [90, 100, 0]) ∧
    ((DataImport.blocksOut DataImport.exampleSchools).map
      (fun b =>
        (b.district_name, b.block_name, b.total_schools, b.total_students,
          b.schools_with_data, b.aadhaar_percentage)) =
      [("PUNE", "HAVELI", 3, 0, 2, 95)]) := by
  constructor
  · with_unfolding_all decide
  · with_unfolding_all decide

theorem alookup_upsert_self {α : Type} (k : String) (init : α) (f : α → α)
    (l : List (String × α)) :
    alookup k (upsert k init f l) = some (f ((alookup k l).getD init)) := by
  induction l with
  | nil => simp [upsert, alookup]
  | cons kv t ih =>
    obtain ⟨k1, v⟩ := kv
    by_cases h : k1 = k
    · subst h
      simp [upsert, alookup]
    · simp [upsert, alookup, h, ih]

theorem alookup_upsert_ne {α : Type} {k k' : String} (h : k ≠ k') (init : α) (f : α → α)
    (l : List (String × α)) :
    alookup k' (upsert k init f l) = alookup k' l := by
  induction l with
  | nil => simp [upsert, alookup, h]
  | cons kv t ih =>
    obtain ⟨k1, v⟩ := kv
    by_cases h1 : k1 = k
    · subst h1
      simp [upsert, alookup, h]
    · simp [upsert, alookup, h1, ih]

/-- Every entry of an upserted list satisfies `P` if the old entries do, the
freshly initialized entry does, and `f` preserves `P` at key `k`. -/
theorem upsert_forall {α : Type} {P : String × α → Prop} {k : String} {init : α} {f : α → α}
    {l : List (String × α)} (hl : ∀ kb ∈ l, P kb) (hinit : P (k, f init))
    (hstep : ∀ v, P (k, v) → P (k, f v)) :
    ∀ kb ∈ upsert k init f l, P kb := by
  induction l with
  | nil =>
    intro kb hkb
    simp only [upsert, List.mem_singleton] at hkb
    subst hkb
    exact hinit
  | cons kv t ih =>
    obtain ⟨k1, v⟩ := kv
    intro kb hkb
    by_cases h : k1 = k
    · subst h
      rw [upsert, if_pos rfl] at hkb
      rcases List.mem_cons.mp hkb with h1 | h1
      · subst h1
        exact hstep v (hl (k1, v) (List.mem_cons_self _ _))
      · exact hl kb (List.mem_cons_of_mem _ h1)
    · rw [upsert, if_neg h] at hkb
      rcases List.mem_cons.mp hkb with h1 | h1
      · subst h1
        exact hl (k1, v) (List.mem_cons_self _ _)
      · exact ih (fun kb2 hkb2 => hl kb2 (List.mem_cons_of_mem _ hkb2)) kb h1

/-- Value of an integer field at a key, or 0 when the key is absent. -/
def lookupZ {α : Type} (g : α → ℤ) (k : String) (l : List (String × α)) : ℤ :=
  match alookup k l with
  | some v => g v
  | none => 0

theorem lookupZ_upsert {α : Type} (g : α → ℤ) (k k' : String) (init : α) (f : α → α)
    (c : ℤ) (hf : ∀ v, g (f v) = g v + c) (hinit : g init = 0) (l : List (String × α)) :
    lookupZ g k' (upsert k init f l) = lookupZ g k' l + (if k = k' then c else 0) := by
  by_cases h : k = k'
  · subst h
    unfold lookupZ
    rw [alookup_upsert_self]
    cases hlk : alookup k l with
    | none => simp [hlk, hf, hinit]
    | some v => simp [hlk, hf]
  · unfold lookupZ
    rw [alookup_upsert_ne h, if_neg h, add_zero]

/-- A string containing no `|` separator. -/
def noPipe (s : String) : Bool := !(s.data.contains '|')

theorem sep_join_inj_chars (sep : Char) :
    ∀ (a c b d : List Char), sep ∉ a → sep ∉ c →
      a ++ sep :: b = c ++ sep :: d → a = c ∧ b = d := by
  intro a
  induction a with
  | nil =>
    intro c b d _ hc h
    cases c with
    | nil => simpa using h
    | cons ch ct =>
      simp only [List.nil_append, List.cons_append, List.cons.injEq] at h
      exact absurd (by rw [h.1]; exact List.mem_cons_self ch ct) hc
  | cons ah at' ih =>
    intro c b d ha hc h
    cases c with
    | nil =>
      simp only [List.cons_append, List.nil_append, List.cons.injEq] at h
      exact absurd (by rw [← h.1]; exact List.mem_cons_self ah at') ha
    | cons ch ct =>
      simp only [List.cons_append, List.cons.injEq] at h
      obtain ⟨h1, h2⟩ := h
      have := ih ct b d (fun hm => ha (List.mem_cons_of_mem _ hm))
        (fun hm => hc (List.mem_cons_of_mem _ hm)) h2
      exact ⟨by rw [h1, this.1], this.2⟩

theorem pipe_join_inj {a b c d : String} (ha : noPipe a = true) (hc : noPipe c = true)
    (h : a ++ "|" ++ b = c ++ "|" ++ d) : a = c ∧ b = d := by
  have hdata : a.data ++ '|' :: b.data = c.data ++ '|' :: d.data := by
    have := congrArg String.data h
    simpa [String.data_append] using this
  have hna : '|' ∉ a.data := by
    simpa [noPipe, List.contains_eq_any_beq, List.any_eq_true] using ha
  have hnc : '|' ∉ c.data := by
    simpa [noPipe, List.contains_eq_any_beq, List.any_eq_true] using hc
  obtain ⟨h1, h2⟩ := sep_join_inj_chars '|' a.data c.data b.data d.data hna hnc hdata
  exact ⟨congrArg String.mk h1, congrArg String.mk h2⟩

namespace DataImport

/-- Generic characterization of any additively-updated field of the district
map: after folding `aggStep`, the field at key `d` grows by the sum of the
per-school increments over the contributing schools of district `d`. -/
theorem agg_dist_field (g : DistAcc → ℤ) (w : SchoolData → ℤ)
    (hinit : ∀ dn, g { district_name := dn } = 0)
    (hstep : ∀ s a, g (distStep s a) = g a + w s) :
    ∀ (l : List SchoolData) (acc : List (String × DistAcc) × List (String × BlockAcc))
      (d : String),
      lookupZ g d (l.foldl aggStep acc).1 =
        lookupZ g d acc.1 +
          ((l.filter (fun s => contributes s && (districtOf s == d))).map w).sum := by
  intro l
  induction l with
  | nil => simp
  | cons s t ih =>
    intro acc d
    rw [List.foldl_cons, ih, List.filter_cons]
    unfold aggStep
    by_cases hs : contributes s
    · rw [if_pos hs]
      dsimp only
      rw [lookupZ_upsert g (districtOf s) d _ _ (w s) (hstep s) (hinit _)]
      by_cases hd : districtOf s = d
      · rw [if_pos hd, if_pos (by simp [hs, hd]), List.map_cons, List.sum_cons]
        ring
      · rw [if_neg hd, if_neg (by simp [hs, hd])]
        ring
    · rw [if_neg hs, if_neg (by simp [hs])]

/-- Generic characterization of any additively-updated field of the block
map, keyed by the composite `district|block` string. -/
theorem agg_block_field (g : BlockAcc → ℤ) (w : SchoolData → ℤ)
    (hinit : ∀ dn bn, g { district_name := dn, block_name := bn } = 0)
    (hstep : ∀ s b, g (blockStep s b) = g b + w s) :
    ∀ (l : List SchoolData) (acc : List (String × DistAcc) × List (String × BlockAcc))
      (k : String),
      lookupZ g k (l.foldl aggStep acc).2 =
        lookupZ g k acc.2 +
          ((l.filter (fun s => contributes s && (blockKeyOf s == k))).map w).sum := by
  intro l
  induction l with
  | nil => simp
  | cons s t ih =>
    intro acc k
    rw [List.foldl_cons, ih, List.filter_cons]
    unfold aggStep
    by_cases hs : contributes s
    · rw [if_pos hs]
      dsimp only
      rw [lookupZ_upsert g (blockKeyOf s) k _ _ (w s) (hstep s) (hinit _ _)]
      by_cases hk : blockKeyOf s = k
      · rw [if_pos hk, if_pos (by simp [hs, hk]), List.map_cons, List.sum_cons]
        ring
      · rw [if_neg hk, if_neg (by simp [hs, hk])]
        ring
    · rw [if_neg hs, if_neg (by simp [hs])]

/-- Sum of `total_schools` over the block aggregates attributed to district
`d` (the blocks whose stored `district_name` equals `d`). -/
def sumB (d : String) (l : List (String × BlockAcc)) : ℤ :=
  ((l.filter (fun kb => kb.2.district_name == d)).map (fun kb => kb.2.total_schools)).sum

/-- Structural invariant of the block map: every key is the `|`-join of the
entry's stored district and block names, and the stored district name is
pipe-free. -/
def BlockInvP (kb : String × BlockAcc) : Prop :=
  kb.1 = kb.2.district_name ++ "|" ++ kb.2.block_name ∧ noPipe kb.2.district_name = true

theorem sumB_cons (d : String) (kb : String × BlockAcc) (t : List (String × BlockAcc)) :
    sumB d (kb :: t) =
      (if kb.2.district_name = d then kb.2.total_schools else 0) + sumB d t := by
  unfold sumB
  rw [List.filter_cons]
  by_cases h : kb.2.district_name = d
  · rw [if_pos (by simp [h]), if_pos h, List.map_cons, List.sum_cons]
  · rw [if_neg (by simp [h]), if_neg h, zero_add]

theorem sumB_upsert (s : SchoolData) (l : List (String × BlockAcc))
    (hInv : ∀ kb ∈ l, BlockInvP kb) (hs : noPipe (districtOf s) = true) (d : String) :
    sumB d
      (upsert (blockKeyOf s) { district_name := districtOf s, block_name := blockOf s }
        (blockStep s) l) =
      sumB d l + (if districtOf s = d then 1 else 0) := by
  induction l with
  | nil =>
    rw [upsert]
    rw [sumB_cons]
    unfold sumB blockStep
    dsimp only
    by_cases hd : districtOf s = d
    · rw [if_pos hd, if_pos hd]
      simp
    · rw [if_neg hd, if_neg hd]
      simp
  | cons kv t ih =>
    obtain ⟨k1, v⟩ := kv
    by_cases h : k1 = blockKeyOf s
    · subst h
      rw [upsert, if_pos rfl, sumB_cons, sumB_cons]
      have hinv := hInv _ (List.mem_cons_self _ _)
      obtain ⟨hkey, hnp⟩ := hinv
      have hjoin : v.district_name ++ "|" ++ v.block_name =
          districtOf s ++ "|" ++ blockOf s := by
        rw [← hkey]
        rfl
      have hdn : v.district_name = districtOf s := (pipe_join_inj hnp hs hjoin).1
      dsimp only [blockStep]
      by_cases hd : districtOf s = d
      · rw [if_pos (by rw [hdn, hd]), if_pos (by rw [hdn, hd]), if_pos hd]
        ring
      · rw [if_neg (by rw [hdn]; exact hd), if_neg (by rw [hdn]; exact hd), if_neg hd]
        ring
    · rw [upsert, if_neg h, sumB_cons, sumB_cons,
        ih (fun kb hkb => hInv kb (List.mem_cons_of_mem _ hkb))]
      ring

theorem agg_blockInv :
    ∀ (l : List SchoolData) (acc : List (String × DistAcc) × List (String × BlockAcc)),
      (∀ kb ∈ acc.2, BlockInvP kb) → (∀ s ∈ l, noPipe (districtOf s) = true) →
      ∀ kb ∈ (l.foldl aggStep acc).2, BlockInvP kb := by
  intro l
  induction l with
  | nil => intro acc hacc _ ; exact hacc
  | cons s t ih =>
    intro acc hacc hl
    rw [List.foldl_cons]
    apply ih
    · unfold aggStep
      by_cases hs : contributes s
      · rw [if_pos hs]
        dsimp only
        apply upsert_forall hacc
        · exact ⟨rfl, hl s (List.mem_cons_self _ _)⟩
        · intro v hv
          exact hv
      · rw [if_neg hs]
        exact hacc
    · exact fun s2 hs2 => hl s2 (List.mem_cons_of_mem _ hs2)

theorem agg_sumB :
    ∀ (l : List SchoolData) (acc : List (String × DistAcc) × List (String × BlockAcc)),
      (∀ kb ∈ acc.2, BlockInvP kb) → (∀ s ∈ l, noPipe (districtOf s) = true) →
      ∀ d, sumB d (l.foldl aggStep acc).2 =
        sumB d acc.2 +
          ((l.filter (fun s => contributes s && (districtOf s == d))).length : ℤ) := by
  intro l
  induction l with
  | nil => simp
  | cons s t ih =>
    intro acc hacc hl d
    rw [List.foldl_cons, List.filter_cons]
    have hsl : noPipe (districtOf s) = true := hl s (List.mem_cons_self _ _)
    have htl : ∀ s2 ∈ t, noPipe (districtOf s2) = true :=
      fun s2 hs2 => hl s2 (List.mem_cons_of_mem _ hs2)
    by_cases hs : contributes s
    · have hacc2 : ∀ kb ∈ (aggStep acc s).2, BlockInvP kb := by
        unfold aggStep
        rw [if_pos hs]
        dsimp only
        apply upsert_forall hacc
        · exact ⟨rfl, hsl⟩
        · intro v hv
          exact hv
      rw [ih (aggStep acc s) hacc2 htl d]
      unfold aggStep
      rw [if_pos hs]
      dsimp only
      rw [sumB_upsert s acc.2 hacc hsl d]
      by_cases hd : districtOf s = d
      · rw [if_pos hd, if_pos (by simp [hs, hd])]
        rw [List.length_cons]
        push_cast
        ring
      · rw [if_neg hd, if_neg (by simp [hs, hd])]
        ring
    · rw [ih (aggStep acc s) (by unfold aggStep; rw [if_neg hs]; exact hacc) htl d]
      unfold aggStep
      rw [if_neg hs, if_neg (by simp [hs])]

end DataImport

/-- C2 counterexample: the block key is the string `district + "|" + block`,
so a district name containing `"|"` collides with another (district, block)
pair.  With school 1 in district `"A|B"`, block `"C"` and school 2 in
district `"A"`, block `"B|C"` — both with non-empty, non-sentinel district
names — the two schools merge into a single block entry attributed to
district `"A|B"`, and district `"A"`'s block total (0) differs from its
district total (1). -/
theorem aggregation_conservation_counterexample :
    (∀ s ∈ [({ district_name := some "A|B", block_name := some "C" } : DataImport.SchoolData),
            { district_name := some "A", block_name := some "B|C" }],
        DataImport.districtOf s ≠ "" ∧ DataImport.districtOf s ≠ "Unknown") ∧
    DataImport.sumB "A"
        (DataImport.get_aggregated_data
          [{ district_name := some "A|B", block_name := some "C" },
           { district_name := some "A", block_name := some "B|C" }]).2 = 0 ∧
    lookupZ DataImport.DistAcc.total_schools "A"
        (DataImport.get_aggregated_data
          [{ district_name := some "A|B", block_name := some "C" },
           { district_name := some "A", block_name := some "B|C" }]).1 = 1 := by
  refine ⟨by decide, by with_unfolding_all decide, by with_unfolding_all decide⟩

/-- C2 (amended) — aggregation conservation: for any set of school records
whose district names are non-empty, non-sentinel, and (as the `"|"`-joined
composite key demands) free of the separator character `"|"`, the sum of
`total_schools` over the block aggregates attributed to a district equals
that district aggregate's `total_schools`, for every district. -/
theorem aggregation_conservation (schools : List DataImport.SchoolData)
    (hdist : ∀ s ∈ schools,
      DataImport.districtOf s ≠ "" ∧ DataImport.districtOf s ≠ "Unknown")
    (hpipe : ∀ s ∈ schools, noPipe (DataImport.districtOf s) = true) :
    ∀ d, DataImport.sumB d (DataImport.get_aggregated_data schools).2 =
      lookupZ DataImport.DistAcc.total_schools d
        (DataImport.get_aggregated_data schools).1 := by
  intro d
  unfold DataImport.get_aggregated_data
  rw [DataImport.agg_sumB schools ([], []) (by simp) hpipe d]
  rw [DataImport.agg_dist_field DataImport.DistAcc.total_schools (fun _ => 1)
    (fun dn => rfl) (fun s a => rfl) schools ([], []) d]
  simp [DataImport.sumB, lookupZ, alookup]

/-- Witness for `aggregation_conservation` on a concrete two-school,
two-block district. -/
theorem aggregation_conservation_witness :
    DataImport.sumB "PUNE"
        (DataImport.get_aggregated_data
          [{ district_name := some "PUNE", block_name := some "HAVELI" },
           { district_name := some "PUNE", block_name := some "MULSHI" }]).2 =
      lookupZ DataImport.DistAcc.total_schools "PUNE"
        (DataImport.get_aggregated_data
          [{ district_name := some "PUNE", block_name := some "HAVELI" },
           { district_name := some "PUNE", block_name := some "MULSHI" }]).1 :=
  aggregation_conservation
    [{ district_name := some "PUNE", block_name := some "HAVELI" },
     { district_name := some "PUNE", block_name := some "MULSHI" }]
    (by decide) (by decide) "PUNE"

theorem alookup_eq_none_iff {α : Type} (k : String) (l : List (String × α)) :
    alookup k l = none ↔ k ∉ l.map Prod.fst := by
  induction l with
  | nil => simp [alookup]
  | cons kv t ih =>
    obtain ⟨k1, v⟩ := kv
    by_cases h : k1 = k
    · subst h
      simp [alookup]
    · simp [alookup, h, ih, Ne.symm h]

theorem upsert_map_fst {α : Type} (k : String) (init : α) (f : α → α)
    (l : List (String × α)) :
    (upsert k init f l).map Prod.fst =
      if k ∈ l.map Prod.fst then l.map Prod.fst else l.map Prod.fst ++ [k] := by
  induction l with
  | nil => simp [upsert]
  | cons kv t ih =>
    obtain ⟨k1, v⟩ := kv
    by_cases h : k1 = k
    · subst h
      simp [upsert]
    · rw [upsert, if_neg h]
      simp only [List.map_cons, ih]
      by_cases hm : k ∈ t.map Prod.fst
      · rw [if_pos hm, if_pos (by simp [hm])]
      · rw [if_neg hm, if_neg (by simp [hm, Ne.symm h]), List.cons_append]

theorem upsert_keys_nodup {α : Type} (k : String) (init : α) (f : α → α)
    {l : List (String × α)} (h : (l.map Prod.fst).Nodup) :
    ((upsert k init f l).map Prod.fst).Nodup := by
  rw [upsert_map_fst]
  by_cases hm : k ∈ l.map Prod.fst
  · rw [if_pos hm]
    exact h
  · rw [if_neg hm]
    simp [List.nodup_append, h, hm]

theorem alookup_eq_of_mem {α : Type} {l : List (String × α)}
    (hnd : (l.map Prod.fst).Nodup) {kb : String × α} (h : kb ∈ l) :
    alookup kb.1 l = some kb.2 := by
  induction l with
  | nil => simp at h
  | cons kv t ih =>
    obtain ⟨k1, v⟩ := kv
    rcases List.mem_cons.mp h with h1 | h1
    · subst h1
      simp [alookup]
    · have hk1 : k1 ≠ kb.1 := by
        intro hc
        have : kb.1 ∈ t.map Prod.fst := List.mem_map_of_mem Prod.fst h1
        rw [← hc] at this
        exact (List.nodup_cons.mp (by simpa using hnd)).1 this
      rw [alookup, if_neg hk1]
      exact ih (List.nodup_cons.mp (by simpa using hnd)).2 h1

namespace DataImport

theorem agg_keys_nodup :
    ∀ (l : List SchoolData) (acc : List (String × DistAcc) × List (String × BlockAcc)),
      ((acc.1.map Prod.fst).Nodup) → ((acc.2.map Prod.fst).Nodup) →
      (((l.foldl aggStep acc).1.map Prod.fst).Nodup) ∧
        (((l.foldl aggStep acc).2.map Prod.fst).Nodup) := by
  intro l
  induction l with
  | nil => exact fun acc h1 h2 => ⟨h1, h2⟩
  | cons s t ih =>
    intro acc h1 h2
    rw [List.foldl_cons]
    apply ih
    · unfold aggStep
      by_cases hs : contributes s
      · rw [if_pos hs]
        exact upsert_keys_nodup _ _ _ h1
      · rw [if_neg hs]
        exact h1
    · unfold aggStep
      by_cases hs : contributes s
      · rw [if_pos hs]
        exact upsert_keys_nodup _ _ _ h2
      · rw [if_neg hs]
        exact h2

end DataImport

/-- C9 — aggregate invariants: in every district aggregate and every block
aggregate produced by `get_aggregated_data` from any list of school
records, `total_schools` equals the number of contributing school records
for that key, and `schools_with_data ≤ total_schools`. -/
theorem aggregate_invariants (schools : List DataImport.SchoolData) :
    (∀ kb ∈ (DataImport.get_aggregated_data schools).1,
      kb.2.total_schools =
        ((schools.filter
          (fun s => DataImport.contributes s && (DataImport.districtOf s == kb.1))).length
          : ℤ) ∧
      kb.2.schools_with_data ≤ kb.2.total_schools) ∧
    (∀ kb ∈ (DataImport.get_aggregated_data schools).2,
      kb.2.total_schools =
        ((schools.filter
          (fun s => DataImport.contributes s && (DataImport.blockKeyOf s == kb.1))).length
          : ℤ) ∧
      kb.2.schools_with_data ≤ kb.2.total_schools) := by
  have hnd := DataImport.agg_keys_nodup schools ([], []) (by simp) (by simp)
  constructor
  · intro kb hkb
    have hlook : alookup kb.1 (DataImport.get_aggregated_data schools).1 = some kb.2 :=
      alookup_eq_of_mem hnd.1 hkb
    have htot := DataImport.agg_dist_field DataImport.DistAcc.total_schools (fun _ => 1)
      (fun dn => rfl) (fun s a => rfl) schools ([], []) kb.1
    have hswd := DataImport.agg_dist_field DataImport.DistAcc.schools_with_data
      (fun s => if DataImport.truthyQ s.aadhaar_percentage then 1 else 0)
      (fun dn => rfl)
      (fun s a => by unfold DataImport.distStep; dsimp only; split <;> simp)
      schools ([], []) kb.1
    unfold DataImport.get_aggregated_data at hlook
    rw [lookupZ, lookupZ, hlook] at htot hswd
    simp only [alookup, zero_add] at htot hswd
    constructor
    · rw [htot]
      simp
    · rw [htot, hswd]
      have hb : ∀ x ∈ (schools.filter
            (fun s => DataImport.contributes s && (DataImport.districtOf s == kb.1))).map
            (fun s => if DataImport.truthyQ s.aadhaar_percentage then (1 : ℤ) else 0),
          x ≤ 1 := by
        intro x hx
        simp only [List.mem_map] at hx
        obtain ⟨s, _, hs⟩ := hx
        rw [← hs]
        split <;> norm_num
      have := List.sum_le_card_nsmul _ 1 hb
      simpa using this
  · intro kb hkb
    have hlook : alookup kb.1 (DataImport.get_aggregated_data schools).2 = some kb.2 :=
      alookup_eq_of_mem hnd.2 hkb
    have htot := DataImport.agg_block_field DataImport.BlockAcc.total_schools (fun _ => 1)
      (fun dn bn => rfl) (fun s a => rfl) schools ([], []) kb.1
    have hswd := DataImport.agg_block_field DataImport.BlockAcc.schools_with_data
      (fun s => if DataImport.truthyQ s.aadhaar_percentage then 1 else 0)
      (fun dn bn => rfl)
      (fun s a => by unfold DataImport.blockStep; dsimp only; split <;> simp)
      schools ([], []) kb.1
    unfold DataImport.get_aggregated_data at hlook
    rw [lookupZ, lookupZ, hlook] at htot hswd
    simp only [alookup, zero_add] at htot hswd
    constructor
    · rw [htot]
      simp
    · rw [htot, hswd]
      have hb : ∀ x ∈ (schools.filter
            (fun s => DataImport.contributes s && (DataImport.blockKeyOf s == kb.1))).map
            (fun s => if DataImport.truthyQ s.aadhaar_percentage then (1 : ℤ) else 0),
          x ≤ 1 := by
        intro x hx
        simp only [List.mem_map] at hx
        obtain ⟨s, _, hs⟩ := hx
        rw [← hs]
        split <;> norm_num
      have := List.sum_le_card_nsmul _ 1 hb
      simpa using this

/-- The single-school list used to witness `aggregate_invariants`. -/
def c9School : DataImport.SchoolData :=
  { district_name := some "PUNE", block_name := some "HAVELI" }

/-- The district entry `get_aggregated_data` produces for `c9School`. -/
def c9Entry : String × DataImport.DistAcc :=
  ("PUNE", { district_name := "PUNE", total_schools := 1 })

/-- Witness for `aggregate_invariants` on a one-school list. -/
theorem aggregate_invariants_witness :
    c9Entry.2.total_schools =
      (([c9School].filter
        (fun s => DataImport.contributes s && (DataImport.districtOf s == c9Entry.1))).length
        : ℤ) ∧
    c9Entry.2.schools_with_data ≤ c9Entry.2.total_schools :=
  (aggregate_invariants [c9School]).1 c9Entry (by with_unfolding_all decide)

/-- Python's `pat in s` substring test. -/
def containsSub (s pat : String) : Bool :=
  s.data.tails.any (fun t => pat.data.isPrefixOf t)

namespace ETL

/-- The running boys/girls/trans totals of `ETLPipeline.etl_enrolment`. -/
structure EnrolTriple where
  boys : ℤ
  girls : ℤ
  trans : ℤ
deriving DecidableEq

/-- One iteration of the column loop of `etl_enrolment`: an `if`/`elif`
chain on the column name, so a name matching several markers is counted
only under the first one. -/
def enrolStep (acc : EnrolTriple) (cv : String × Val) : EnrolTriple :=
  if containsSub cv.1 "(Boys)" then { acc with boys := acc.boys + safe_int cv.2 }
  else if containsSub cv.1 "(Girls)" then { acc with girls := acc.girls + safe_int cv.2 }
  else if containsSub cv.1 "(Trans)" then { acc with trans := acc.trans + safe_int cv.2 }
  else acc

/-- The column loop of `etl_enrolment` over a row given as (column name,
cell value) pairs. -/
def enrolTotals (row : List (String × Val)) : EnrolTriple :=
  row.foldl enrolStep ⟨0, 0, 0⟩

/-- The enrolment fields of the record `etl_enrolment` emits. -/
structure EnrolRecord where
  boys_enrolment : ℤ
  girls_enrolment : ℤ
  trans_enrolment : ℤ
  total_enrolment : ℤ
deriving DecidableEq

/-- The record construction of `etl_enrolment`:
`total = boys_total + girls_total + trans_total`. -/
def etl_enrolment_record (row : List (String × Val)) : EnrolRecord :=
  { boys_enrolment := (enrolTotals row).boys
    girls_enrolment := (enrolTotals row).girls
    trans_enrolment := (enrolTotals row).trans
    total_enrolment := (enrolTotals row).boys + (enrolTotals row).girls + (enrolTotals row).trans }

end ETL

/-- Sum of the coerced values of the columns whose name satisfies `p`. -/
def sumCols (p : String → Bool) (row : List (String × Val)) : ℤ :=
  ((row.filter (fun cv => p cv.1)).map (fun cv => ETL.safe_int cv.2)).sum

theorem sumCols_cons (p : String → Bool) (cv : String × Val) (t : List (String × Val)) :
    sumCols p (cv :: t) = (if p cv.1 then ETL.safe_int cv.2 else 0) + sumCols p t := by
  unfold sumCols
  rw [List.filter_cons]
  by_cases h : p cv.1
  · rw [if_pos (by simp [h]), if_pos h, List.map_cons, List.sum_cons]
  · rw [if_neg (by simp [h]), if_neg h, zero_add]

theorem enrolTotals_fold (l : List (String × Val)) :
    ∀ acc : ETL.EnrolTriple,
      (l.foldl ETL.enrolStep acc).boys =
        acc.boys + sumCols (fun c => containsSub c "(Boys)") l ∧
      (l.foldl ETL.enrolStep acc).girls =
        acc.girls + sumCols (fun c => !containsSub c "(Boys)" && containsSub c "(Girls)") l ∧
      (l.foldl ETL.enrolStep acc).trans =
        acc.trans + sumCols
          (fun c => !containsSub c "(Boys)" && !containsSub c "(Girls)" &&
            containsSub c "(Trans)") l := by
  induction l with
  | nil => intro acc; simp [sumCols]
  | cons cv t ih =>
    intro acc
    rw [List.foldl_cons, sumCols_cons, sumCols_cons, sumCols_cons]
    obtain ⟨ihb, ihg, iht⟩ := ih (ETL.enrolStep acc cv)
    rw [ihb, ihg, iht]
    by_cases hb : containsSub cv.1 "(Boys)"
    · refine ⟨?_, ?_, ?_⟩ <;> simp [ETL.enrolStep, hb] <;> ring
    · by_cases hg : containsSub cv.1 "(Girls)"
      · refine ⟨?_, ?_, ?_⟩ <;> simp [ETL.enrolStep, hb, hg] <;> ring
      · by_cases ht2 : containsSub cv.1 "(Trans)"
        · refine ⟨?_, ?_, ?_⟩ <;> simp [ETL.enrolStep, hb, hg, ht2] <;> ring
        · refine ⟨?_, ?_, ?_⟩ <;> simp [ETL.enrolStep, hb, hg, ht2]

/-- C10 counterexample: for a row with the single column
`"A(Boys)(Girls)"` holding 5, the code's `elif` chain counts the value
under boys only, so `girls_enrolment = 0` while the claim's addend — the
sum over all columns whose name contains `"(Girls)"` — is 5, and the
claim's three addends sum to 10, not the emitted `total_enrolment = 5`. -/
theorem enrolment_addend_counterexample :
    (ETL.etl_enrolment_record [("A(Boys)(Girls)", .vInt 5)]).girls_enrolment = 0 ∧
    sumCols (fun c => containsSub c "(Girls)") [("A(Boys)(Girls)", .vInt 5)] = 5 ∧
    (ETL.etl_enrolment_record [("A(Boys)(Girls)", .vInt 5)]).total_enrolment = 5 ∧
    sumCols (fun c => containsSub c "(Boys)") [("A(Boys)(Girls)", .vInt 5)] +
      sumCols (fun c => containsSub c "(Girls)") [("A(Boys)(Girls)", .vInt 5)] +
      sumCols (fun c => containsSub c "(Trans)") [("A(Boys)(Girls)", .vInt 5)] = 10 := by
  refine ⟨by decide, by decide, by decide, by decide⟩

/-- C10 (amended) — every record emitted by the enrolment ETL satisfies
`total_enrolment = boys_enrolment + girls_enrolment + trans_enrolment`
unconditionally; and provided no column name contains two different
markers (the `if`/`elif` chain otherwise counts such a column only under
the first marker), each addend is the sum of the coerced values of the
columns whose name contains `"(Boys)"`, `"(Girls)"`, `"(Trans)"`
respectively. -/
theorem enrolment_total_invariant (row : List (String × Val)) :
    ((ETL.etl_enrolment_record row).total_enrolment =
      (ETL.etl_enrolment_record row).boys_enrolment +
        (ETL.etl_enrolment_record row).girls_enrolment +
        (ETL.etl_enrolment_record row).trans_enrolment) ∧
    ((∀ cv ∈ row,
        ¬(containsSub cv.1 "(Boys)" = true ∧ containsSub cv.1 "(Girls)" = true) ∧
        ¬(containsSub cv.1 "(Boys)" = true ∧ containsSub cv.1 "(Trans)" = true) ∧
        ¬(containsSub cv.1 "(Girls)" = true ∧ containsSub cv.1 "(Trans)" = true)) →
      (ETL.etl_enrolment_record row).boys_enrolment =
        sumCols (fun c => containsSub c "(Boys)") row ∧
      (ETL.etl_enrolment_record row).girls_enrolment =
        sumCols (fun c => containsSub c "(Girls)") row ∧
      (ETL.etl_enrolment_record row).trans_enrolment =
        sumCols (fun c => containsSub c "(Trans)") row) := by
  constructor
  · rfl
  · intro hdisj
    obtain ⟨hb, hg, ht⟩ := enrolTotals_fold row ⟨0, 0, 0⟩
    have hgirls : row.filter
        (fun cv => !containsSub cv.1 "(Boys)" && containsSub cv.1 "(Girls)") =
        row.filter (fun cv => containsSub cv.1 "(Girls)") := by
      apply List.filter_congr
      intro cv hcv
      obtain ⟨h1, _, _⟩ := hdisj cv hcv
      cases hB : containsSub cv.1 "(Boys)" <;> cases hG : containsSub cv.1 "(Girls)" <;>
        simp_all
    have htrans : row.filter
        (fun cv => !containsSub cv.1 "(Boys)" && !containsSub cv.1 "(Girls)" &&
          containsSub cv.1 "(Trans)") =
        row.filter (fun cv => containsSub cv.1 "(Trans)") := by
      apply List.filter_congr
      intro cv hcv
      obtain ⟨_, h2, h3⟩ := hdisj cv hcv
      cases hB : containsSub cv.1 "(Boys)" <;> cases hG : containsSub cv.1 "(Girls)" <;>
        cases hT : containsSub cv.1 "(Trans)" <;> simp_all
    refine ⟨?_, ?_, ?_⟩
    · unfold ETL.etl_enrolment_record ETL.enrolTotals
      dsimp only
      rw [hb]
      ring
    · unfold ETL.etl_enrolment_record ETL.enrolTotals
      dsimp only
      rw [hg]
      unfold sumCols
      rw [hgirls]
      ring
    · unfold ETL.etl_enrolment_record ETL.enrolTotals
      dsimp only
      rw [ht]
      unfold sumCols
      rw [htrans]
      ring

/-- Witness for `enrolment_total_invariant` on a two-column row with
disjoint markers, discharging the disjointness hypothesis of the addend
characterization. -/
theorem enrolment_total_invariant_witness :
    ((ETL.etl_enrolment_record
      [("Class 1(Boys)", .vInt 3), ("Class 1(Girls)", .vInt 4)]).total_enrolment =
      (ETL.etl_enrolment_record
        [("Class 1(Boys)", .vInt 3), ("Class 1(Girls)", .vInt 4)]).boys_enrolment +
        (ETL.etl_enrolment_record
          [("Class 1(Boys)", .vInt 3), ("Class 1(Girls)", .vInt 4)]).girls_enrolment +
        (ETL.etl_enrolment_record
          [("Class 1(Boys)", .vInt 3), ("Class 1(Girls)", .vInt 4)]).trans_enrolment) ∧
    ((ETL.etl_enrolment_record
      [("Class 1(Boys)", .vInt 3), ("Class 1(Girls)", .vInt 4)]).boys_enrolment =
      sumCols (fun c => containsSub c "(Boys)")
        [("Class 1(Boys)", .vInt 3), ("Class 1(Girls)", .vInt 4)] ∧
    (ETL.etl_enrolment_record
      [("Class 1(Boys)", .vInt 3), ("Class 1(Girls)", .vInt 4)]).girls_enrolment =
      sumCols (fun c => containsSub c "(Girls)")
        [("Class 1(Boys)", .vInt 3), ("Class 1(Girls)", .vInt 4)] ∧
    (ETL.etl_enrolment_record
      [("Class 1(Boys)", .vInt 3), ("Class 1(Girls)", .vInt 4)]).trans_enrolment =
      sumCols (fun c => containsSub c "(Trans)")
        [("Class 1(Boys)", .vInt 3), ("Class 1(Girls)", .vInt 4)]) :=
  ⟨(enrolment_total_invariant
      [("Class 1(Boys)", .vInt 3), ("Class 1(Girls)", .vInt 4)]).1,
    (enrolment_total_invariant
      [("Class 1(Boys)", .vInt 3), ("Class 1(Girls)", .vInt 4)]).2 (by decide)⟩
